import Mathlib

/-!
Shallow embedding of the `@alcyone-labs/simple-logger` core
(`src/index.ts`, `src/transports.ts`, `src/types.ts`, `src/utils.ts`)
and proofs about it.

JavaScript objects are modelled as association lists where a later
binding overrides an earlier one (matching object-spread semantics);
`oget` is property lookup.
-/

namespace SimpleLogger

/-- A JavaScript value, as far as the logger inspects values:
strings, numbers, booleans, null, plain objects and arrays. -/
inductive JsValue where
  | vStr (s : String)
  | vNum (n : Int)
  | vBool (b : Bool)
  | vNull
  | vObj (fields : List (String × JsValue))
  | vArr (elems : List JsValue)
deriving Repr

/-- A plain JavaScript object: key/value bindings in insertion order;
a later binding for the same key overrides an earlier one, exactly as
object spread `\x7b...a, ...b\x7d` does. -/
abbrev JsObj := List (String × JsValue)

/-- Property lookup on a `JsObj`: the LAST binding for a key wins,
matching JavaScript assignment/spread override semantics. -/
def oget : JsObj → String → Option JsValue
  | [], _ => none
  | (k', v) :: rest, k =>
      match oget rest k with
      | some v' => some v'
      | none => if k' = k then some v else none

theorem oget_append (a b : JsObj) (k : String) :
    oget (a ++ b) k = match oget b k with
      | some v => some v
      | none => oget a k := by
  induction a with
  | nil =>
      cases h : oget b k <;> simp [oget, h]
  | cons p rest ih =>
      obtain ⟨k', v⟩ := p
      have hstep : oget (((k', v) :: rest) ++ b) k =
          match oget (rest ++ b) k with
          | some v' => some v'
          | none => if k' = k then some v else none := rfl
      rw [hstep, ih]
      cases h : oget b k <;> cases h2 : oget rest k <;> simp [oget, h, h2]

/-- The four severities, `TLogLevel` in `src/types.ts`. -/
inductive TLogLevel where
  | debug
  | info
  | warn
  | error
deriving DecidableEq, Repr

/-- The `LEVELS` rank table in `src/utils.ts`. -/
def LEVELS : TLogLevel → Nat
  | .debug => 0
  | .info => 1
  | .warn => 2
  | .error => 3

/-- `shouldLog` from `src/utils.ts`:
`transportLevel || "info"` defaults an absent threshold to `info`
(a `TLogLevel` string is never falsy, so `||` only replaces `undefined`),
then compares ranks with `mVal >= tVal`. -/
def shouldLog (transportLevel : Option TLogLevel) (messageLevel : TLogLevel) : Bool :=
  let tLevel := transportLevel.getD .info
  let tVal := LEVELS tLevel
  let mVal := LEVELS messageLevel
  decide (mVal ≥ tVal)

/-- C2: `shouldLog(t, m)` is true iff `rank(m) ≥ rank(t)`, an absent `t`
defaulting to the info rank, and the ranks form the total order
debug=0 < info=1 < warn=2 < error=3. -/
theorem shouldLog_iff_rank_ge :
    (∀ (t : Option TLogLevel) (m : TLogLevel),
      shouldLog t m = true ↔ LEVELS m ≥ LEVELS (t.getD .info)) ∧
    LEVELS .debug = 0 ∧ LEVELS .info = 1 ∧ LEVELS .warn = 2 ∧ LEVELS .error = 3 ∧
    LEVELS .debug < LEVELS .info ∧ LEVELS .info < LEVELS .warn ∧
    LEVELS .warn < LEVELS .error := by
  refine ⟨?_, rfl, rfl, rfl, rfl, by decide, by decide, by decide⟩
  intro t m
  cases t with
  | none => cases m <;> simp [shouldLog, LEVELS]
  | some tl => cases tl <;> cases m <;> simp [shouldLog, LEVELS]

/-- A log event, `TLog` in `src/types.ts` (`z.input` of `logMessageSchema`):
a string `message` and an open `data` object that may contain a
`metadata` sub-object. -/
structure TLog where
  message : String
  data : JsObj

/-- The event's own `data.metadata`, as read by the spread
`...(data.data?.metadata || \x7b\x7d)` in `mergeMetadata`
(`src/index.ts` line 68): a present record is spread; an absent or
falsy value contributes nothing. (Truthy non-record values such as
strings are excluded by the `TLog` contract, whose `metadata` field is
an optional record.) -/
def ownMetadata (d : JsObj) : JsObj :=
  match oget d "metadata" with
  | some (.vObj l) => l
  | _ => []

/-- Whether the event's own `data.metadata` is a record or absent, the
shapes the `TLog` contract allows and the only shapes `ownMetadata`
models faithfully. -/
def eventMetadataWellFormed (e : TLog) : Bool :=
  match oget e.data "metadata" with
  | some (.vObj _) => true
  | none => true
  | some _ => false

/-- `LoggerSingleton.mergeMetadata` (`src/index.ts` lines 62-73):
`\x7b...data, data: \x7b...data.data, metadata: \x7b...(data.data?.metadata || \x7b\x7d), ...metadata\x7d\x7d\x7d`.
Appending models spread: the later binding overrides. -/
def mergeMetadata (data : TLog) (metadata : JsObj) : TLog :=
  { message := data.message
    data := data.data ++ [("metadata", .vObj (ownMetadata data.data ++ metadata))] }

/-- A transport in the dispatcher's active list, identified for the
set-management claims: the built-in `ConsoleTransport` (with its
threshold) or an externally supplied transport with an identity. -/
inductive TransportTag where
  | consoleT (level : TLogLevel)
  | extT (id : Nat)
deriving DecidableEq, Repr

/-- `LoggerSingleton.transports` (`src/index.ts` line 22):
`ITransport[] | null`, starting as `null`. -/
abbrev LoggerState := Option (List TransportTag)

/-- `LoggerSingleton.getTransports` (`src/index.ts` lines 24-29):
lazily installs `[new ConsoleTransport("info")]` when the field is
still `null`, then returns the list. Returns the list together with
the updated field. -/
def getTransports : LoggerState → List TransportTag × LoggerState
  | none => ([.consoleT .info], some [.consoleT .info])
  | some ts => (ts, some ts)

/-- `LoggerSingleton.setTransports` (`src/index.ts` lines 34-36):
`this.transports = [...transports]` — a fresh copy of the given list
replaces the field (an empty array is truthy, so it is kept as-is by
later `getTransports` calls). -/
def setTransports (transports : List TransportTag) (_ : LoggerState) : LoggerState :=
  some transports

/-- `LoggerSingleton.addTransport` (`src/index.ts` lines 41-43):
`this.getTransports().push(transport)`. -/
def addTransport (t : TransportTag) (s : LoggerState) : LoggerState :=
  let r := getTransports s
  some (r.1 ++ [t])

/-- `configureLogger` (`src/index.ts` lines 99-103): calls
`setTransports` only when `options.transports` is supplied. -/
def configureLogger (transports : Option (List TransportTag)) (s : LoggerState) : LoggerState :=
  match transports with
  | some ts => setTransports ts s
  | none => s

/-- `LoggerSingleton.dispatch` (`src/index.ts` lines 49-60):
`finalData` is `mergeMetadata(data, metadata)` when `metadata` is
supplied (any supplied object is truthy, even an empty one) and `data`
otherwise; the `for` loop then invokes the method matching `level` on
every active transport with `finalData`. The result lists the
invocations (transport, level, event) in order, with the updated
transport state. -/
def dispatch (s : LoggerState) (level : TLogLevel) (data : TLog) (metadata : Option JsObj) :
    List (TransportTag × TLogLevel × TLog) × LoggerState :=
  let finalData := match metadata with
    | some m => mergeMetadata data m
    | none => data
  let r := getTransports s
  (r.1.map fun t => (t, level, finalData), r.2)

theorem ownMetadata_merge (e : TLog) (m : JsObj) :
    ownMetadata (mergeMetadata e m).data = ownMetadata e.data ++ m := by
  show ownMetadata (e.data ++ [("metadata", .vObj (ownMetadata e.data ++ m))]) = _
  unfold ownMetadata
  rw [oget_append]
  simp [oget]

theorem oget_merge_data_ne (e : TLog) (m : JsObj) (k : String) (h : k ≠ "metadata") :
    oget (mergeMetadata e m).data k = oget e.data k := by
  show oget (e.data ++ [("metadata", .vObj (ownMetadata e.data ++ m))]) k = _
  rw [oget_append]
  simp [oget, if_neg (Ne.symm h)]

/-- C1: dispatching an event `e` with non-empty bound metadata `m`
delivers to every active transport a merged copy whose `data.metadata`
is the shallow merge of `e`'s own `data.metadata` (empty when absent)
with `m`, `m` winning wholesale on key collision; `message` and the
other `data` fields pass through unchanged. The merge builds a fresh
object by spread (`src/index.ts` lines 62-73); `e` itself is untouched. -/
theorem dispatch_delivers_shallow_merged_copy
    (s : LoggerState) (level : TLogLevel) (e : TLog) (m : JsObj)
    (_hm : m ≠ []) (_hwf : eventMetadataWellFormed e = true) :
    (dispatch s level e (some m)).1 =
      (getTransports s).1.map (fun t => (t, level, mergeMetadata e m)) ∧
    (mergeMetadata e m).message = e.message ∧
    ownMetadata (mergeMetadata e m).data = ownMetadata e.data ++ m ∧
    (∀ k, oget (ownMetadata (mergeMetadata e m).data) k =
        match oget m k with
        | some v => some v
        | none => oget (ownMetadata e.data) k) ∧
    (∀ k, k ≠ "metadata" → oget (mergeMetadata e m).data k = oget e.data k) := by
  refine ⟨rfl, rfl, ownMetadata_merge e m, ?_, fun k hk => oget_merge_data_ne e m k hk⟩
  intro k
  rw [ownMetadata_merge e m, oget_append]

/-- Concrete event used to witness C1: its `data` already holds
`metadata.user` (a nested record) and `metadata.a`, plus a sibling
field `x`. -/
def sampleEvent1 : TLog :=
  { message := "msg"
    data := [("metadata", .vObj [("user", .vObj [("id", .vNum 1), ("name", .vStr "A")]),
                                 ("a", .vNum 1)]),
             ("x", .vNum 7)] }

/-- Concrete bound metadata used to witness C1: collides on `user`
with a different nested record and adds `requestId`. -/
def sampleMeta1 : JsObj :=
  [("user", .vObj [("id", .vNum 2)]), ("requestId", .vStr "123")]

/-- Witness for C1 at a concrete input: the colliding nested `user`
record is replaced wholesale by the bound value, the event-own key `a`
survives, the new key `requestId` is added, and the sibling `data`
field `x` passes through. -/
theorem dispatch_delivers_shallow_merged_copy_witness :
    oget (ownMetadata (mergeMetadata sampleEvent1 sampleMeta1).data) "user" =
      some (.vObj [("id", .vNum 2)]) ∧
    oget (ownMetadata (mergeMetadata sampleEvent1 sampleMeta1).data) "a" =
      some (.vNum 1) ∧
    oget (ownMetadata (mergeMetadata sampleEvent1 sampleMeta1).data) "requestId" =
      some (.vStr "123") ∧
    oget (mergeMetadata sampleEvent1 sampleMeta1).data "x" = some (.vNum 7) := by
  have h := dispatch_delivers_shallow_merged_copy (some [.extT 0]) .info
    sampleEvent1 sampleMeta1 (by simp [sampleMeta1]) (by rfl)
  exact ⟨(h.2.2.2.1 "user").trans rfl, (h.2.2.2.1 "a").trans rfl,
    (h.2.2.2.1 "requestId").trans rfl, (h.2.2.2.2 "x" (by decide)).trans rfl⟩

/-- C6: `configureLogger(\x7btransports: ts\x7d)` replaces the active set with
exactly `ts` (even empty), so subsequent dispatches invoke exactly the
members of `ts` and no previously installed transport; `addTransport`
appends without disturbing the existing set, lazily installing the
default `[ConsoleTransport("info")]` first when nothing was configured. -/
theorem transport_set_replace_and_append
    (s : LoggerState) (ts old : List TransportTag) (t : TransportTag)
    (lvl : TLogLevel) (e : TLog) :
    configureLogger (some ts) s = some ts ∧
    (dispatch (configureLogger (some ts) s) lvl e none).1.map (fun d => d.1) = ts ∧
    addTransport t (some old) = some (old ++ [t]) ∧
    addTransport t none = some [.consoleT .info, t] := by
  refine ⟨rfl, ?_, rfl, rfl⟩
  simp only [configureLogger, setTransports, dispatch, getTransports, List.map_map]
  exact List.map_id ts

/-- A reference to a caller-held (mutable) metadata object. -/
abbrev Ref := Nat

/-- The heap of caller-held metadata objects: the current property
bindings of each object. JavaScript passes objects by reference, so a
handle stores a `Ref` and every spread of the object reads the heap at
that moment. -/
abbrev Heap := Ref → JsObj

/-- A logger handle as produced by the module: the process-wide
`logger` singleton (`src/index.ts` line 95), or the object literal
returned by `LoggerSingleton.child` (lines 84-91). A `child` literal
is a fresh allocation, identified by `allocId`; it closes over the
caller's metadata object by reference (`metadataRef`). -/
inductive Handle where
  | rootHandle
  | childHandle (allocId : Nat) (metadataRef : Ref)
deriving DecidableEq, Repr

/-- A runtime error of the host language. -/
inductive JsError where
  | typeError
  | fetchFailed
deriving DecidableEq, Repr

/-- `useLogging` (`src/index.ts` lines 116-121): when `metadata` is
absent (`!metadata`) or has no keys (`Object.keys(metadata).length === 0`,
read from the object's current state), return the singleton `logger`;
otherwise return `logger.child(metadata)`, a fresh literal closing
over the metadata reference. `alloc` is the next fresh allocation id. -/
def useLogging (heap : Heap) (alloc : Nat) (metadata : Option Ref) : Handle × Nat :=
  match metadata with
  | none => (.rootHandle, alloc)
  | some r =>
      if (heap r).isEmpty then (.rootHandle, alloc)
      else (.childHandle alloc r, alloc + 1)

/-- Calling `.child(m)` on a handle. On the `LoggerSingleton` instance
(the root) this runs `child` (`src/index.ts` lines 84-91) and returns a
fresh literal. That literal carries exactly the four severity methods
and no `child` property (and `ILogger` in `src/types.ts` declares
none), so on an already-derived handle the property access yields
`undefined` and the call raises `TypeError`. -/
def callChildOn (h : Handle) (alloc : Nat) (r : Ref) : Except JsError (Handle × Nat) :=
  match h with
  | .rootHandle => .ok (.childHandle alloc r, alloc + 1)
  | .childHandle _ _ => .error .typeError

/-- The event a handle's severity method hands to the transports: the
root calls `dispatch(level, data)` with no bound metadata; a derived
handle's closures call `dispatch(level, data, metadata)` with the
captured reference, and `mergeMetadata` spreads the object's CURRENT
heap value at dispatch time (`src/index.ts` lines 49-50, 62-73, 86-89). -/
def handleEmit (heap : Heap) (h : Handle) (e : TLog) : TLog :=
  match h with
  | .rootHandle => e
  | .childHandle _ r => mergeMetadata e (heap r)

/-- C3: `useLogging` with absent or empty metadata returns the one
root identity on every call, while non-empty metadata returns a handle
distinct from the root. -/
theorem useLogging_root_identity (heap : Heap) (alloc : Nat) (r : Ref) :
    useLogging heap alloc none = (.rootHandle, alloc) ∧
    ((heap r).isEmpty = true → useLogging heap alloc (some r) = (.rootHandle, alloc)) ∧
    ((heap r).isEmpty = false → (useLogging heap alloc (some r)).1 ≠ .rootHandle) := by
  refine ⟨rfl, fun h => ?_, fun h => ?_⟩
  · simp [useLogging, h]
  · simp [useLogging, h]

/-- Heap for the C3 witness: object 0 is empty, object 1 is not. -/
def probeHeap : Heap := fun r => if r = 0 then [] else [("x", .vNum 1)]

/-- Witness for C3: repeated zero-metadata calls and an empty-mapping
call all return the root; a non-empty call does not. -/
theorem useLogging_root_identity_witness :
    useLogging probeHeap 5 none = (.rootHandle, 5) ∧
    useLogging probeHeap 5 (some 0) = (.rootHandle, 5) ∧
    (useLogging probeHeap 5 (some 1)).1 ≠ .rootHandle := by
  obtain ⟨h1, h2, h3⟩ := useLogging_root_identity probeHeap 5 0
  obtain ⟨-, -, h3'⟩ := useLogging_root_identity probeHeap 5 1
  exact ⟨h1, h2 (by decide), h3' (by decide)⟩

/-- Heap for C4, after the docs' own example
(`skill-forge/.../gotchas.md`): object 0 is the parent metadata,
object 1 the metadata supplied to the attempted second derivation. -/
def chainHeap : Heap := fun r =>
  if r = 0 then [("file", .vStr "parent.ts"), ("service", .vStr "api")]
  else [("operation", .vStr "getUser")]

/-- C4 (code bug): deriving from the root works, but the handle it
returns has no `child` method, so the documented second derivation
`useLogging(\x7bfile, service\x7d).child(\x7boperation\x7d)` raises `TypeError`
instead of producing a merged grandchild. -/
theorem derived_handle_has_no_child_method :
    useLogging chainHeap 0 (some 0) = (.childHandle 0 0, 1) ∧
    callChildOn .rootHandle 0 0 = .ok (.childHandle 0 0, 1) ∧
    callChildOn (.childHandle 0 0) 1 1 = .error .typeError := by
  refine ⟨?_, rfl, rfl⟩
  simp [useLogging, chainHeap]

/-- The caller-held metadata object before mutation: `\x7ba: 1\x7d` at
reference 0. -/
def heapBeforeMutation : Heap := fun _ => [("a", .vNum 1)]

/-- The same heap after the caller runs `m.a = 2` on its object,
AFTER the child handle was created. -/
def heapAfterMutation : Heap := fun _ => [("a", .vNum 2)]

/-- Event with no metadata of its own, used for the C5 counterexample. -/
def sampleEvent2 : TLog := { message := "m", data := [] }

/-- Counterexample to C5: the child handle is created while the
caller's object reads `\x7ba: 1\x7d`, the caller then mutates it to
`\x7ba: 2\x7d`, and the event subsequently emitted through the
already-created handle carries `metadata.a = 2`, not the
creation-time value 1 — the mutation does change the emitted
metadata. -/
theorem child_metadata_mutation_visible :
    (useLogging heapBeforeMutation 0 (some 0)).1 = .childHandle 0 0 ∧
    oget (ownMetadata (handleEmit heapAfterMutation (.childHandle 0 0) sampleEvent2).data) "a" =
      some (.vNum 2) ∧
    oget (ownMetadata (handleEmit heapBeforeMutation (.childHandle 0 0) sampleEvent2).data) "a" =
      some (.vNum 1) ∧
    some (JsValue.vNum 2) ≠ some (JsValue.vNum 1) := by
  refine ⟨by simp [useLogging, heapBeforeMutation], rfl, rfl, by simp⟩

/-- C5 amended: a derived handle captures the metadata object by
reference; each dispatch shallow-merges the object's heap value AT
DISPATCH TIME over the event's own metadata, so later mutation of the
caller-held object is reflected in subsequently emitted events. -/
theorem child_emits_dispatch_time_metadata
    (heap : Heap) (alloc : Nat) (r : Ref) (e : TLog) (k : String) :
    oget (ownMetadata (handleEmit heap (.childHandle alloc r) e).data) k =
      match oget (heap r) k with
      | some v => some v
      | none => oget (ownMetadata e.data) k := by
  show oget (ownMetadata (mergeMetadata e (heap r)).data) k = _
  rw [ownMetadata_merge, oget_append]

/-- Behavior of one transport's severity method for the dispatched
event: its stable identity and whether the method throws. -/
structure TBehavior where
  id : Nat
  throwsOn : Bool
deriving DecidableEq, Repr

/-- The dispatch `for` loop (`src/index.ts` lines 52-59) with each
transport's outcome explicit: no `try`/`catch` surrounds the
`t.info(finalData)` calls, so the first transport that throws ends the
loop and its exception escapes `dispatch`. Returns the ids of the
transports whose method was invoked, in order, and whether an
exception escaped. -/
def broadcastLoop : List TBehavior → List Nat × Bool
  | [] => ([], false)
  | t :: rest =>
      if t.throwsOn then ([t.id], true)
      else
        let r := broadcastLoop rest
        (t.id :: r.1, r.2)

/-- Counterexample to C7: with active transports `[0 (throws), 1]`,
transport 0's exception prevents transport 1 from ever being invoked
in the same dispatch call — failures are NOT contained per-transport. -/
theorem transport_throw_aborts_dispatch_cex :
    broadcastLoop [⟨0, true⟩, ⟨1, false⟩] = ([0], true) ∧
    (1 : Nat) ∉ (broadcastLoop [⟨0, true⟩, ⟨1, false⟩]).1 := by
  decide

/-- C7 amended: an exception raised by one transport's severity method
aborts the dispatch loop: the transports before the thrower are
invoked, the thrower's exception escapes `dispatch` to the caller, and
the subsequently-iterated transports are not invoked. -/
theorem transport_throw_aborts_dispatch
    (pre : List TBehavior) (t : TBehavior) (post : List TBehavior)
    (hpre : ∀ b ∈ pre, b.throwsOn = false) (ht : t.throwsOn = true) :
    broadcastLoop (pre ++ t :: post) = (pre.map (fun b => b.id) ++ [t.id], true) := by
  induction pre with
  | nil => simp [broadcastLoop, ht]
  | cons b rest ih =>
      have hb : b.throwsOn = false := hpre b (List.mem_cons_self b rest)
      have hr := ih (fun x hx => hpre x (List.mem_cons_of_mem b hx))
      simp [broadcastLoop, hb, hr]

/-- Witness for the amended C7 at a concrete input: transports 5, 7
(throws), 9 — the loop invokes 5 and 7, the exception escapes, and 9
is never invoked. -/
theorem transport_throw_aborts_dispatch_witness :
    broadcastLoop [⟨5, false⟩, ⟨7, true⟩, ⟨9, false⟩] = ([5, 7], true) := by
  have h := transport_throw_aborts_dispatch [⟨5, false⟩] ⟨7, true⟩ [⟨9, false⟩]
    (by decide) rfl
  simpa using h

/-- How the network operation issued by `RemoteTransport.send`
eventually settles: the `fetch` promise resolves with some HTTP status
(success or not), or rejects with a network failure. -/
inductive NetOutcome where
  | okResp (status : Nat)
  | netFailure
deriving DecidableEq, Repr

/-- `await fetch(...)` inside `RemoteTransport.send`
(`src/transports.ts` lines 50-58): resolves for any HTTP response —
the response object and its status are never inspected — and rejects
only on a network failure. -/
def fetchAwait : NetOutcome → Except JsError Unit
  | .okResp _ => .ok ()
  | .netFailure => .error .fetchFailed

/-- The body of `send` once its promise settles
(`src/transports.ts` lines 48-62): `try (await fetch(...)) catch ( )` with
an empty catch block, so no exception escapes the async task and no
fallback log is written. Result: what the settled task yields, paired
with any fallback output it produced. -/
def sendSettle (o : NetOutcome) : Except JsError Unit × List String :=
  match fetchAwait o with
  | .ok _ => (.ok (), [])
  | .error _ => (.ok (), [])

/-- `RemoteTransport`'s constructor state (`src/transports.ts`
lines 41-46): destination URL, threshold (defaulting to `info`),
extra headers. -/
structure RemoteTransport where
  url : String
  level : TLogLevel
  headers : List (String × String)

/-- A severity method of `RemoteTransport` (`src/transports.ts`
lines 64-75): when the threshold passes, `this.send(level, data)` is
called WITHOUT `await` — the method returns immediately and the send
is left pending. Returns the method's (void) result together with the
pending sends it issued. -/
def remoteMethod (rt : RemoteTransport) (mLevel : TLogLevel) (data : TLog) :
    Unit × List (TLogLevel × TLog) :=
  if shouldLog (some rt.level) mLevel then ((), [(mLevel, data)]) else ((), [])

/-- C8: an event passing a `RemoteTransport`'s threshold issues the
network send as a pending (un-awaited) task and the severity method
returns at once; whatever way the network operation later settles —
network failure or any (even non-success) response — no exception
escapes and no fallback log is written; and a dispatch over
`[remote, other]` invokes both transports independently of the
network outcome (which is not even an input of `dispatch`). -/
theorem remote_fire_and_forget
    (rt : RemoteTransport) (lvl : TLogLevel) (e : TLog) (o : NetOutcome)
    (a b : TransportTag)
    (hpass : shouldLog (some rt.level) lvl = true) :
    remoteMethod rt lvl e = ((), [(lvl, e)]) ∧
    sendSettle o = (.ok (), []) ∧
    (dispatch (some [a, b]) lvl e none).1.map (fun d => d.1) = [a, b] := by
  refine ⟨?_, ?_, rfl⟩
  · simp [remoteMethod, hpass]
  · cases o <;> rfl

/-- Witness for C8 at concrete inputs: an info event on an
info-threshold remote transport, with the send later failing on the
network and, separately, resolving with HTTP 500. -/
theorem remote_fire_and_forget_witness :
    remoteMethod ⟨"https://api.logs.com", .info, []⟩ .info sampleEvent2 =
      ((), [(.info, sampleEvent2)]) ∧
    sendSettle .netFailure = (.ok (), []) ∧
    sendSettle (.okResp 500) = (.ok (), []) ∧
    (dispatch (some [.extT 0, .extT 1]) .info sampleEvent2 none).1.map (fun d => d.1) =
      [.extT 0, .extT 1] := by
  have h1 := remote_fire_and_forget ⟨"https://api.logs.com", .info, []⟩ .info
    sampleEvent2 .netFailure (.extT 0) (.extT 1) (by decide)
  have h2 := remote_fire_and_forget ⟨"https://api.logs.com", .info, []⟩ .info
    sampleEvent2 (.okResp 500) (.extT 0) (.extT 1) (by decide)
  exact ⟨h1.1, h1.2.1, h2.2.1, h1.2.2⟩

/-- Why a candidate event fails `logMessageSchema`. -/
inductive ValidationFail where
  | invalidShape
deriving DecidableEq, Repr

/-- `logMessageSchema` (`src/types.ts` lines 123-128), with zod
semantics: `z.object` rejects any non-plain-object candidate;
`message: z.string()` requires a present string; `data` is
`z.object(\x7bmetadata: z.record(z.string(), z.any()).optional()\x7d).and(z.record(z.string(), z.any()))`,
so `data` must be a present plain object, its `metadata` key — when
present — must itself be a record (`z.record` rejects non-objects,
arrays included), and every other key inside `data` is permitted.
Unknown top-level keys are stripped, not rejected. Parsing is a
synchronous call returning the failure to the caller. -/
def logMessageSchemaParse (v : JsValue) : Except ValidationFail Unit :=
  match v with
  | .vObj fs =>
      match oget fs "message", oget fs "data" with
      | some (.vStr _), some (.vObj ds) =>
          match oget ds "metadata" with
          | none => .ok ()
          | some (.vObj _) => .ok ()
          | some _ => .error .invalidShape
      | _, _ => .error .invalidShape
  | _ => .error .invalidShape

/-- Whether `logMessageSchema` accepts the candidate. -/
def logMessageAccepts (v : JsValue) : Bool :=
  match logMessageSchemaParse v with
  | .ok _ => true
  | .error _ => false

/-- Modelled from the spec: the claim's acceptance predicate — valid
iff `message` is present and a string AND `data` is present and a
mapping, with extra fields inside `data` always permitted and no
further constraint. -/
def claimedValid (v : JsValue) : Bool :=
  match v with
  | .vObj fs =>
      (match oget fs "message" with
       | some (.vStr _) => true
       | _ => false) &&
      (match oget fs "data" with
       | some (.vObj _) => true
       | _ => false)
  | _ => false

/-- A candidate whose `message` is a string and whose `data` is a
mapping, but whose `data.metadata` is the number 5. -/
def malformedMetadataEvent : JsValue :=
  .vObj [("message", .vStr "x"), ("data", .vObj [("metadata", .vNum 5)])]

/-- Counterexample to C9's "if and only if": this candidate satisfies
the claim's validity condition (string `message`, mapping `data`), yet
the schema rejects it, because `data.metadata` is present and not a
record. -/
theorem validation_iff_cex :
    claimedValid malformedMetadataEvent = true ∧
    logMessageSchemaParse malformedMetadataEvent = .error .invalidShape :=
  ⟨rfl, rfl⟩

/-- C9 amended: the schema accepts a candidate iff `message` is a
present string, `data` is a present mapping, and `data.metadata` —
when present — is itself a mapping; other fields inside `data` are
unconstrained. -/
theorem validation_accepts_iff (v : JsValue) :
    logMessageAccepts v =
      ((match v with
        | .vObj fs =>
            (match oget fs "message" with
             | some (.vStr _) => true
             | _ => false) &&
            (match oget fs "data" with
             | some (.vObj ds) =>
                 (match oget ds "metadata" with
                  | none => true
                  | some (.vObj _) => true
                  | _ => false)
             | _ => false)
        | _ => false) : Bool) := by
  cases v with
  | vObj fs =>
      simp only [logMessageAccepts, logMessageSchemaParse]
      rcases h1 : oget fs "message" with _ | v1
      · rcases h2 : oget fs "data" with _ | v2
        · rfl
        · cases v2 <;> rfl
      · rcases h2 : oget fs "data" with _ | v2
        · cases v1 <;> rfl
        · cases v1 <;> cases v2 <;> try rfl
          case vStr.vObj s ds =>
            rcases h3 : oget ds "metadata" with _ | v3
            · simp [h3]
            · cases v3 <;> simp [h3]
  | vStr s => rfl
  | vNum n => rfl
  | vBool b => rfl
  | vNull => rfl
  | vArr l => rfl

/-- A host console object: which of the four severity methods it
actually carries (service-worker hosts may supply a partial console). -/
structure ConsoleObj where
  hasInfo : Bool
  hasDebug : Bool
  hasWarn : Bool
  hasError : Bool
deriving DecidableEq, Repr

/-- Whether the console carries the method for a severity
(the `safeConsole?.info` style truthiness test). -/
def hasMethod (c : ConsoleObj) : TLogLevel → Bool
  | .info => c.hasInfo
  | .debug => c.hasDebug
  | .warn => c.hasWarn
  | .error => c.hasError

/-- The transports module's load-time state: the cached console probe. -/
structure ModuleState where
  safeConsole : Option ConsoleObj

/-- The `safeConsole` IIFE (`src/transports.ts` lines 8-14), evaluated
ONCE at module load: `typeof console !== "undefined" ? console :
undefined`, wrapped in try/catch; the result is cached in a module
constant. -/
def moduleInit (hostAtLoad : Option ConsoleObj) : ModuleState :=
  { safeConsole := hostAtLoad }

/-- A `ConsoleTransport` severity method (`src/transports.ts`
lines 19-38): `if (shouldLog(this.level, m) && safeConsole?.m)
safeConsole.m(data.message, data)`. The method consults only the
cached `safeConsole`; `hostNow`, the live global at call time, is
never read by the source. Returns the console invocations made —
`(severity, message, full event)` — and the `Except` layer records
that no path raises. -/
def consoleMethod (st : ModuleState) (_hostNow : Option ConsoleObj)
    (tLevel mLevel : TLogLevel) (data : TLog) :
    Except JsError (List (TLogLevel × String × TLog)) :=
  if shouldLog (some tLevel) mLevel
      && ((st.safeConsole.map (fun c => hasMethod c mLevel)).getD false) then
    .ok [(mLevel, data.message, data)]
  else
    .ok []

/-- C10: a `ConsoleTransport` severity method never throws — with no
host console, or with the specific method absent, it silently makes no
console call — and it depends only on the once-cached probe, not on
the live console at call time. -/
theorem console_transport_never_throws
    (st : ModuleState) (h1 h2 : Option ConsoleObj) (tl ml : TLogLevel)
    (e : TLog) (c : ConsoleObj) (hc : hasMethod c ml = false) :
    (∃ out, consoleMethod st h1 tl ml e = .ok out) ∧
    consoleMethod (moduleInit none) h1 tl ml e = .ok [] ∧
    consoleMethod (moduleInit (some c)) h1 tl ml e = .ok [] ∧
    consoleMethod st h1 tl ml e = consoleMethod st h2 tl ml e := by
  refine ⟨?_, ?_, ?_, rfl⟩
  · unfold consoleMethod
    split
    · exact ⟨_, rfl⟩
    · exact ⟨_, rfl⟩
  · simp [consoleMethod, moduleInit]
  · simp [consoleMethod, moduleInit, hc]

/-- Witness for C10 at concrete inputs: a debug event on a
debug-threshold transport makes no call when the cached probe found a
console lacking `debug`, and none when it found no console at all. -/
theorem console_transport_never_throws_witness :
    consoleMethod (moduleInit (some ⟨true, false, true, true⟩)) none .debug .debug
      sampleEvent2 = .ok [] ∧
    consoleMethod (moduleInit none) (some ⟨true, true, true, true⟩) .debug .debug
      sampleEvent2 = .ok [] := by
  have h := console_transport_never_throws (moduleInit (some ⟨true, false, true, true⟩))
    none (some ⟨true, true, true, true⟩) .debug .debug sampleEvent2
    ⟨true, false, true, true⟩ rfl
  have h2 := console_transport_never_throws (moduleInit none)
    (some ⟨true, true, true, true⟩) none .debug .debug sampleEvent2
    ⟨true, false, true, true⟩ rfl
  exact ⟨h.2.2.1, h2.2.1⟩

end SimpleLogger
